import Mathlib

/-
  Verification of the SparkBox station orchestration core.

  Shallow embedding of the Python sources:
    - tasks/talk/ai_manager.py        (AIManager: pipeline, chat, logs)
    - tasks/talk/mentor_module.py     (SolutionAgent: generate/chat, _extract_json)
    - tasks/talk/vision_module.py     (VisionAgent)
    - tasks/talk/image_test.py        (ImageGenAgent.generate_image)
    - tasks/ui_output/web_manager.py  (WebManager: push_event, api_status, api_result, api_reset)
    - src/main_arm.py                 (SparkBoxApp: handle_gpio, handle_reset, process_voice_after_record)
    - tasks/img_input/detect.py       (SquareDetector: candidate filter, order_points)

  Pure functions are translated to Lean functions; network calls become
  explicit outcome parameters; the mutable object state becomes explicit
  state records threaded through each operation.  Machine floats that only
  ever hold integer pixel coordinates are modelled as Int; float time
  in seconds is modelled as Rat.
-/

namespace SparkBox

/-- A JSON-like value, the shape of the Python dict/list/str payloads that
flow through the pipeline, the event bus and the session log. -/
inductive Json where
  | null
  | str (s : String)
  | num (n : Int)
  | boolean (b : Bool)
  | arr (elems : List Json)
  | obj (fields : List (String × Json))

/-- First field of a JSON object with the given key (Python `dict.get`). -/
def Json.get : Json → String → Option Json
  | .obj fields, key =>
    match fields.find? (fun kv => kv.1 = key) with
    | some kv => some kv.2
    | none => none
  | _, _ => none

/-- `dict.get(key)` restricted to string values; a missing key, a non-object
or a non-string value yields `none`.  Python truthiness of `""` is handled at
the use sites. -/
def Json.getStr (j : Json) (key : String) : Option String :=
  match j.get key with
  | some (.str s) => some s
  | _ => none

/-- `dict.get(key)` restricted to a list of strings (material/step lists). -/
def Json.getStrList (j : Json) (key : String) : Option (List String) :=
  match j.get key with
  | some (.arr elems) =>
    some (elems.filterMap (fun e => match e with | .str s => some s | _ => none))
  | _ => none

/-- An event published on the in-process bus
(`WebManager.push_event` builds `{state, message, data, timestamp}`;
the timestamp plays no role in any claim and is omitted). -/
structure Event where
  state : String
  message : String
  data : Option Json

/-- `WebManager` event state: the SSE queue plus the remembered
`latest_status` (web_manager.py lines 40-45, 63-74). -/
structure WebState where
  latest_status : Event
  event_queue : List Event

/-- The initial `latest_status` of web_manager.py lines 41-45 (also restored
by `api_reset`, lines 111-115). -/
def initialStatus : Event :=
  { state := "ready", message := "System Ready", data := none }

/-- `WebManager.push_event` (web_manager.py lines 63-74): remember the event
as `latest_status` and append it to the SSE queue. -/
def push_event (w : WebState) (state message : String) (data : Option Json) : WebState :=
  { latest_status := { state := state, message := message, data := data },
    event_queue := w.event_queue ++ [{ state := state, message := message, data := data }] }

/-- Publish a whole list of events in order. -/
def push_events (w : WebState) (evs : List Event) : WebState :=
  evs.foldl (fun acc e => push_event acc e.state e.message e.data) w

/-- `SolutionAgent` mutable state (mentor_module.py lines 23-27):
`history` feeds `chat`, `conversation_history` and `current_solution`
feed `generate`.  Turns are (role, content) pairs. -/
structure SolutionAgentState where
  history : List (String × String)
  conversation_history : List (String × String)
  current_solution : Option Json

/-- `AIManager` mutable state (ai_manager.py lines 32-52).  The
`solution_agent` object the manager holds a reference to is bundled here so
that one record carries all conversation state.  `current_log_path` is kept
abstract as a session counter. -/
structure AIManagerState where
  is_processing : Bool
  status_message : String
  last_vision_result : Option Json
  last_solution_result : Option Json
  last_complete_result : Option Json
  solution_agent : SolutionAgentState

/-- A `{role, type, content}` record of the session log
(ai_manager.py `_log_text` / `_log_image`). -/
structure LogEntry where
  role : String
  kind : String
  content : String

/-- `AIManager.reset_results` (ai_manager.py lines 54-60): clear the three
stored results and the status flags.  It touches nothing else — in
particular not the `SolutionAgent` memory and no file. -/
def reset_results (st : AIManagerState) : AIManagerState :=
  { st with
    last_vision_result := none
    last_solution_result := none
    last_complete_result := none
    status_message := "Ready"
    is_processing := false }

/-- `SolutionAgent.clear_memory` (mentor_module.py lines 187-193): clear
`conversation_history` and `current_solution`; `history` is not touched. -/
def clear_memory (st : SolutionAgentState) : SolutionAgentState :=
  { st with conversation_history := [], current_solution := none }

/-- `AIManager.get_status` (ai_manager.py lines 396-404). -/
def get_status (st : AIManagerState) : Json :=
  .obj [("is_processing", .boolean st.is_processing),
        ("status_message", .str st.status_message),
        ("last_vision_result", (st.last_vision_result.getD .null)),
        ("last_solution_result", (st.last_solution_result.getD .null)),
        ("last_complete_result", (st.last_complete_result.getD .null))]

/-- `api_status` (web_manager.py lines 87-97): the snapshot is derived from
the `AIManager` fields (`is_processing` flag and `status_message`), not from
the bus.  `none` models `self.ai_manager` being unset. -/
def api_status (ai : Option AIManagerState) : Json :=
  match ai with
  | some st =>
    .obj [("state", .str (if st.is_processing then "processing" else "ready")),
          ("message", .str st.status_message),
          ("data", get_status st)]
  | none => .obj [("state", .str "offline"), ("message", .str "System offline")]

/-- `api_result` (web_manager.py lines 99-104). -/
def api_result (ai : Option AIManagerState) : Json :=
  match ai with
  | some st =>
    match st.last_complete_result with
    | some r => r
    | none => .obj [("error", .str "No results available")]
  | none => .obj [("error", .str "No results available")]

/-- The `ai_logs` directory, modelled as named file contents.  Only identity
matters to the claims (reset must not touch it). -/
def LogDir : Type := List (String × List Json)

/-- Outcome of `POST /api/reset`. -/
structure ResetOutcome where
  web : WebState
  ai : AIManagerState
  files : LogDir
  response : Json

/-- `api_reset` (web_manager.py lines 106-116): `reset_results` on the
manager, restore the initial `latest_status`, answer `{"status":"reset_ok"}`.
No file operation occurs in either function, so the log directory is
returned unchanged. -/
def api_reset (w : WebState) (ai : AIManagerState) (files : LogDir) : ResetOutcome :=
  { web := { w with latest_status := initialStatus },
    ai := reset_results ai,
    files := files,
    response := .obj [("status", .str "reset_ok")] }

/-- Parse outcome of the current session-log file when `_append_log_entries`
re-reads it (ai_manager.py lines 87-95): the file may be absent, raise on
open/`json.load`, parse to a non-list value, or parse to a list. -/
inductive LogFileState where
  | absent
  | unreadable
  | nonList (v : Json)
  | list (entries : List Json)

/-- `AIManager._append_log_entries` (ai_manager.py lines 81-99): the existing
list is recovered only when the file parses to a list; every failure path
silently falls back to `[]`; then the new entries are appended and the file
rewritten.  No exception escapes and no event is pushed. -/
def append_log_entries (file : LogFileState) (entries : List Json) : LogFileState :=
  .list ((match file with
          | .list prev => prev
          | _ => []) ++ entries)

/-- `SolutionAgent.chat` (mentor_module.py lines 83-112).  The remote
chat-completion call is the `upstream` parameter: `.ok reply` is a returned
body, `.error e` is a raised exception.  On a falsy `current_solution` the
method returns a canned sentence without touching the API; on an upstream
exception it catches everything and returns the fixed apology string. -/
def SolutionAgent.chat (st : SolutionAgentState) (text : String)
    (upstream : Except String String) : SolutionAgentState × String :=
  match st.current_solution with
  | none => (st, "请先分析一张图片，然后再开始对话。")
  | some _ =>
    let st1 := { st with history := st.history ++ [("user", text)] }
    match upstream with
    | .ok reply => ({ st1 with history := st1.history ++ [("assistant", reply)] }, reply)
    | .error _ => (st1, "抱歉，我暂时无法回答。")

/-- Result of one `AIManager` job: the new manager state, the events pushed
through the callback (in order), the `{role,type,content}` records appended
to the session log, and whether `SolutionAgent.chat` was invoked. -/
structure ChatRunResult where
  ai : AIManagerState
  events : List Event
  logs : List LogEntry
  solution_chat_called : Bool

/-- `AIManager.run_chat_ai` (ai_manager.py lines 303-361).  Admission checks
first (busy, missing vision context), then `voice_user`/`voice_processing`
events, the user turn is logged, `SolutionAgent.chat` runs, and a truthy
reply yields `voice_response` plus an "ai" log turn while a falsy reply
yields `voice_error "AI回复失败"`.  `finally` clears `is_processing`. -/
def run_chat_ai (ai : AIManagerState) (text : String)
    (upstream : Except String String) : ChatRunResult :=
  if ai.is_processing then
    { ai := ai,
      events := [{ state := "voice_error", message := "AI正在忙碌，请稍后再试", data := none }],
      logs := [], solution_chat_called := false }
  else
    match ai.last_vision_result with
    | none =>
      { ai := { ai with status_message := "Chat Failed: No Context" },
        events := [{ state := "voice_error", message := "请先拍照分析图片", data := none }],
        logs := [], solution_chat_called := false }
    | some _ =>
      let evsPre : List Event :=
        [{ state := "voice_user", message := text, data := some (.obj [("user_text", .str text)]) },
         { state := "voice_processing", message := "AI正在思考...", data := none }]
      let logsPre : List LogEntry :=
        if text = "" then [] else [{ role := "user", kind := "text", content := text }]
      let chatRes := SolutionAgent.chat ai.solution_agent text upstream
      let ai1 := { ai with solution_agent := chatRes.1 }
      if chatRes.2 = "" then
        { ai := { ai1 with status_message := "AI Chat Failed", is_processing := false },
          events := evsPre ++ [{ state := "voice_error", message := "AI回复失败", data := none }],
          logs := logsPre, solution_chat_called := true }
      else
        { ai := { ai1 with status_message := "AI Responded!", is_processing := false },
          events := evsPre ++
            [{ state := "voice_response", message := chatRes.2,
               data := some (.obj [("ai_text", .str chatRes.2)]) }],
          logs := logsPre ++ [{ role := "ai", kind := "text", content := chatRes.2 }],
          solution_chat_called := true }

/-- ASCII whitespace as matched by `\s` and stripped by `str.strip()`
(Python additionally accepts some non-ASCII Unicode whitespace; only
non-membership of backtick, braces and letters matters in the proofs). -/
def pySpace (c : Char) : Bool :=
  c = ' ' || c = '\t' || c = '\n' || c = '\r' || c = Char.ofNat 11 || c = Char.ofNat 12

/-- `str.strip()` on a character list. -/
def strip_chars (l : List Char) : List Char :=
  ((l.dropWhile pySpace).reverse.dropWhile pySpace).reverse

/-- `str.lower()` on the ASCII range (`Char.toLower` lowers exactly the
ASCII letters that can occur in the `"null"` comparison). -/
def py_lower (s : String) : String :=
  String.mk (s.toList.map Char.toLower)

/-- `str.strip()`. -/
def py_strip (s : String) : String :=
  String.mk (strip_chars s.toList)

/-- Python truthiness plus the `"null"` filter of
`AIManager.transcribe_and_chat` (ai_manager.py line 381):
`text and text.strip().lower() != "null"`. -/
def transcript_valid (t : Option String) : Bool :=
  match t with
  | none => false
  | some s => !(s = "") && !(py_lower (py_strip s) = "null")

/-- `AIManager.transcribe_and_chat` (ai_manager.py lines 369-388), the body
behind `POST /api/voice/stop` (web_manager.py line 173).  `transcript` is the
value `voice_handler.transcribe_audio()` returned (`none` = Python `None`).
The `voice_handler` is assumed present (the route already checked it). -/
def transcribe_and_chat (ai : AIManagerState) (transcript : Option String)
    (upstream : Except String String) : ChatRunResult :=
  let pre : Event := { state := "voice_processing", message := "正在转录语音...", data := none }
  if transcript_valid transcript then
    let text := transcript.getD ""
    let r := run_chat_ai { ai with status_message := "Voice: " ++ text.take 20 ++ "..." } text upstream
    { r with events := pre :: r.events }
  else
    { ai := { ai with status_message := "Voice: Transcription Failed" },
      events := [pre, { state := "voice_error", message := "语音识别失败，请再次输入", data := none }],
      logs := [], solution_chat_called := false }

/-- `SparkBoxApp.process_voice_after_record` (main_arm.py lines 351-365), the
handler run when the GPIO push-to-talk button is released
(main_arm.py line 293).  It guards only on Python truthiness of the
transcript — there is no `"null"` comparison on this path — pushes a bare
`voice_user` event, and submits the text to `run_chat_ai`. -/
def process_voice_after_record (ai : AIManagerState) (transcript : Option String)
    (upstream : Except String String) : ChatRunResult :=
  match transcript with
  | some text =>
    if text = "" then
      { ai := ai,
        events := [{ state := "voice_error", message := "未识别到语音", data := none }],
        logs := [], solution_chat_called := false }
    else
      let r := run_chat_ai ai text upstream
      { r with events := { state := "voice_user", message := text, data := none } :: r.events }
  | none =>
    { ai := ai,
      events := [{ state := "voice_error", message := "未识别到语音", data := none }],
      logs := [], solution_chat_called := false }

/-- Outcome of one adapter call as observed inside
`AIManager.run_ai_pipeline`: a truthy result, a falsy result (the adapters
catch their own exceptions and return `None`), or an exception escaping into
the pipeline's `except` branch. -/
inductive StageOut (α : Type) where
  | ok (val : α)
  | noResult
  | raised (msg : String)

/-- The external world of one capture job: the Vision adapter outcome, the
Solution adapter outcome, what `ImageGenAgent.generate_image` would return
if called (`none` = it returned `None`), the relative path that
`_log_image` records for the user snapshot, the relative path of the
downloaded preview (`none` = download failed, no log entry), and the
timestamp string used in the final output. -/
structure PipelineEnv where
  vision : StageOut Json
  solution : StageOut Json
  preview : Option String
  image_rel : String
  preview_rel : Option String
  timestamp : String

/-- `AIManager._format_solution_text` (ai_manager.py lines 155-184): render
the solution dict into the human-readable block that is logged as the
assistant turn.  `get(...) or get(...)` falls through on falsy values, so an
empty string behaves like a missing key. -/
def format_solution_text (sr : Json) : String :=
  let nameOpt :=
    match sr.getStr "project_name" with
    | some s => if s = "" then sr.getStr "project_title" else some s
    | none => sr.getStr "project_title"
  let parts : List String :=
    (match nameOpt with
     | some s => if s = "" then [] else ["项目名称：" ++ s]
     | none => []) ++
    (match sr.getStr "core_idea" with
     | some s => if s = "" then [] else ["核心思路：" ++ s]
     | none => []) ++
    (match sr.getStrList "materials" with
     | some mats => if mats = [] then [] else ["材料清单：" ++ String.intercalate "、" mats]
     | none => []) ++
    (match sr.getStrList "steps" with
     | some steps =>
       if steps = [] then []
       else ["制作步骤：\n" ++ String.intercalate "\n"
         ((steps.enum.map (fun p => toString (p.1 + 1) ++ ". " ++ p.2)))]
     | none => []) ++
    (match sr.getStrList "learning_outcomes" with
     | some outs =>
       if outs = [] then []
       else ["学习收获：\n" ++ String.intercalate "\n" (outs.map (fun o => "- " ++ o))]
     | none => [])
  String.intercalate "\n\n" parts

/-- Result of one capture job. -/
structure PipelineResult where
  ai : AIManagerState
  events : List Event
  logs : List LogEntry

/-- `AIManager.run_ai_pipeline` (ai_manager.py lines 186-282), the capture
job.  Faithfully follows the control flow: the initial `processing` event, a
fresh log session, `clear_memory`, the Vision stage (a falsy result sets
`status_message` and plainly `return`s — no event), the user-image log turn,
the Solution stage (same silent return on a falsy result), the rendered
solution log turn, the Preview stage (skipped on an empty `image_prompt`;
its failure is not an error), the `complete` event, with a single `error`
event in the `except` branch and `is_processing = False` in `finally`. -/
def run_ai_pipeline (ai : AIManagerState) (env : PipelineEnv) : PipelineResult :=
  let a0 : AIManagerState :=
    { ai with is_processing := true, status_message := "Analyzing Image...",
              solution_agent := clear_memory ai.solution_agent }
  let e0 : List Event :=
    [{ state := "processing", message := "Analyzing Image...", data := none },
     { state := "processing", message := "Vision Analysis...", data := none }]
  match env.vision with
  | .raised msg =>
    { ai := { a0 with is_processing := false, status_message := "Error in Pipeline" },
      events := e0 ++ [{ state := "error", message := msg, data := none }],
      logs := [] }
  | .noResult =>
    { ai := { a0 with is_processing := false, status_message := "Vision Failed" },
      events := e0, logs := [] }
  | .ok vr =>
    let a1 := { a0 with last_vision_result := some vr,
                        status_message := "Generating Solution..." }
    let l1 : List LogEntry := [{ role := "user", kind := "image", content := env.image_rel }]
    let e1 := e0 ++ [{ state := "processing", message := "Generating Solution...",
                       data := some (.obj [("vision", vr)]) }]
    match env.solution with
    | .raised msg =>
      { ai := { a1 with is_processing := false, status_message := "Error in Pipeline" },
        events := e1 ++ [{ state := "error", message := msg, data := none }],
        logs := l1 }
    | .noResult =>
      { ai := { a1 with is_processing := false, status_message := "Solution Failed" },
        events := e1, logs := l1 }
    | .ok sr =>
      let formatted := format_solution_text sr
      let l2 := l1 ++ (if formatted = "" then []
                       else [{ role := "ai", kind := "text", content := formatted }])
      let e2 := e1 ++ [{ state := "processing", message := "Generating Preview Image...",
                         data := none }]
      let image_prompt := (sr.getStr "image_prompt").getD ""
      let preview_url := if image_prompt = "" then none else env.preview
      let l3 := l2 ++ (match preview_url with
                       | some _ =>
                         match env.preview_rel with
                         | some rel => [{ role := "ai", kind := "image", content := rel }]
                         | none => []
                       | none => [])
      let statusDone := match preview_url with
                        | some _ => "Pipeline Complete! Check Console."
                        | none => "Pipeline Complete (No Image)."
      let final : Json :=
        .obj [("vision", vr), ("solution", sr),
              ("preview_url", match preview_url with | some u => .str u | none => .null),
              ("timestamp", .str env.timestamp)]
      { ai := { a1 with is_processing := false,
                        status_message := statusDone,
                        last_solution_result := some sr,
                        last_complete_result := some final },
        events := e2 ++ [{ state := "complete", message := "Analysis Complete!",
                           data := some final }],
        logs := l3 }

/-- Count of terminal events — a `complete` or an `error` — in a trace. -/
def terminal_count (evs : List Event) : Nat :=
  evs.countP (fun e => e.state = "complete" || e.state = "error")

/-- A Python exception escaping the modelled code. -/
inductive PyErr where
  | attributeError
deriving DecidableEq

/-- Every attribute name ever assigned on `AIManager`
(ai_manager.py: `__init__` lines 26-52, plus the method bodies, which only
re-assign the same names).  `"has_result"` is not among them. -/
def ai_manager_attr_names : List String :=
  ["global_config", "vision_agent", "solution_agent", "image_agent", "voice_handler",
   "is_processing", "status_message",
   "last_vision_result", "last_solution_result", "last_complete_result",
   "event_callback", "log_dir", "log_images_dir", "current_log_path"]

/-- The attribute read `self.ai_manager.has_result` performed by
`SparkBoxApp.handle_gpio` (main_arm.py lines 242 and 263).  Python raises
`AttributeError` when the name is not defined on the object; the `.ok` arm
states the value the surrounding code plainly intends (a completed result is
stored) and is dead because the name is absent from
`ai_manager_attr_names`. -/
def lookup_has_result (ai : AIManagerState) : Except PyErr Bool :=
  if "has_result" ∈ ai_manager_attr_names then
    .ok ai.last_complete_result.isSome
  else
    .error .attributeError

/-- `SparkBoxApp` state relevant to the contextual capture button
(main_arm.py `_init_gpio` lines 136-153 and `handle_gpio`). -/
structure AppState where
  ai : AIManagerState
  last_capture_time : Rat
  last_reset_time : Rat
  in_voice_mode : Bool
  video_release_required : Bool
  frame_available : Bool

/-- `self.capture_cooldown = 1.0` (main_arm.py line 149). -/
def capture_cooldown : Rat := 1

/-- `self.reset_refractory_period = 2.0` (main_arm.py line 153). -/
def reset_refractory_period : Rat := 2

/-- The Capture-button branch of `SparkBoxApp.handle_gpio`
(main_arm.py lines 224-253) together with `trigger_snapshot`
(lines 311-323, the busy re-check is unreachable here), `handle_snapshot`
(lines 325-340, successful save; the async pipeline run is modelled
separately by `run_ai_pipeline`) and `handle_reset` (lines 342-349).
`pressed` is `btn.get_press()`, `now` is `time.time()`.  Reading the
undefined attribute `has_result` surfaces as `Except.error`. -/
def handle_gpio_capture (st : AppState) (pressed : Bool) (now : Rat) :
    Except PyErr (AppState × List Event) :=
  if !pressed then .ok (st, [])
  else if now - st.last_capture_time < capture_cooldown then .ok (st, [])
  else
    let st1 := { st with last_capture_time := now }
    if st1.ai.is_processing then .ok (st1, [])
    else do
      let hasRes ← lookup_has_result st1.ai
      if !hasRes then
        if now - st1.last_reset_time < reset_refractory_period then .ok (st1, [])
        else if !st1.frame_available then .ok (st1, [])
        else
          .ok ({ st1 with in_voice_mode := false },
               [{ state := "processing", message := "正在分析图像...", data := none }])
      else
        .ok ({ st1 with ai := reset_results st1.ai,
                        last_reset_time := now,
                        in_voice_mode := false,
                        video_release_required := false },
             [{ state := "control", message := "Reset",
                data := some (.obj [("action", .str "reset")]) }])

/-! ### Canvas detector (tasks/img_input/detect.py)

Contour vertices produced by `cv2.approxPolyDP` carry the integer pixel
coordinates of the undistorted frame; a four-vertex candidate is a `Quad`
in boundary order.  Distances are compared through their squares, which is
equivalent for the non-negative quantities involved (the code compares
`max_side / min_side ≤ 1.5` on float square roots). -/

/-- An integer pixel point (image coordinates: x right, y down). -/
structure Pt where
  x : Int
  y : Int
deriving DecidableEq

/-- A four-vertex polygon candidate in boundary order. -/
structure Quad where
  p0 : Pt
  p1 : Pt
  p2 : Pt
  p3 : Pt
deriving DecidableEq

/-- Coordinate sum `x + y` (detect.py line 270, `pts.sum(axis=1)`). -/
def psum (p : Pt) : Int := p.x + p.y

/-- Coordinate difference `y - x`
(detect.py line 275, `np.diff(pts, axis=1)`). -/
def pdiff (p : Pt) : Int := p.y - p.x

/-- `np.argmin` over the four values `f p0, f p1, f p2, f p3`, returning the
first point attaining the minimum, exactly as numpy ties break. -/
def pick_min (f : Pt → Int) (q : Quad) : Pt :=
  if f q.p0 ≤ f q.p1 ∧ f q.p0 ≤ f q.p2 ∧ f q.p0 ≤ f q.p3 then q.p0
  else if f q.p1 ≤ f q.p2 ∧ f q.p1 ≤ f q.p3 then q.p1
  else if f q.p2 ≤ f q.p3 then q.p2
  else q.p3

/-- `np.argmax` counterpart of `pick_min`. -/
def pick_max (f : Pt → Int) (q : Quad) : Pt :=
  if f q.p1 ≤ f q.p0 ∧ f q.p2 ≤ f q.p0 ∧ f q.p3 ≤ f q.p0 then q.p0
  else if f q.p2 ≤ f q.p1 ∧ f q.p3 ≤ f q.p1 then q.p1
  else if f q.p3 ≤ f q.p2 then q.p2
  else q.p3

/-- `SquareDetector.order_points` (detect.py lines 263-279): relabel the four
vertices as `(TL, TR, BR, BL)` with TL = argmin(x+y), TR = argmin(y-x),
BR = argmax(x+y), BL = argmax(y-x).  The result is returned in the field
order `p0 = TL, p1 = TR, p2 = BR, p3 = BL`. -/
def order_points (q : Quad) : Quad :=
  { p0 := pick_min psum q, p1 := pick_min pdiff q,
    p2 := pick_max psum q, p3 := pick_max pdiff q }

/-- Squared Euclidean distance between two points. -/
def distSq (a b : Pt) : Int :=
  (a.x - b.x) * (a.x - b.x) + (a.y - b.y) * (a.y - b.y)

/-- Largest squared side length of the closed polygon `p0 p1 p2 p3`. -/
def maxSideSq (q : Quad) : Int :=
  max (max (distSq q.p0 q.p1) (distSq q.p1 q.p2))
      (max (distSq q.p2 q.p3) (distSq q.p3 q.p0))

/-- Smallest squared side length of the closed polygon `p0 p1 p2 p3`. -/
def minSideSq (q : Quad) : Int :=
  min (min (distSq q.p0 q.p1) (distSq q.p1 q.p2))
      (min (distSq q.p2 q.p3) (distSq q.p3 q.p0))

/-- Cross product of the edges `o→a` and `o→b`. -/
def pcross (o a b : Pt) : Int :=
  (a.x - o.x) * (b.y - o.y) - (a.y - o.y) * (b.x - o.x)

/-- Twice the signed shoelace area of the candidate;
`cv2.contourArea q = |shoelace2 q| / 2`. -/
def shoelace2 (q : Quad) : Int :=
  (q.p0.x * q.p1.y - q.p1.x * q.p0.y) + (q.p1.x * q.p2.y - q.p2.x * q.p1.y) +
  (q.p2.x * q.p3.y - q.p3.x * q.p2.y) + (q.p3.x * q.p0.y - q.p0.x * q.p3.y)

/-- `cv2.isContourConvex` on a four-vertex contour: the cross products at
consecutive vertex triples all share one sign (zeros tolerated). -/
def is_contour_convex (q : Quad) : Bool :=
  (0 ≤ pcross q.p0 q.p1 q.p2 && 0 ≤ pcross q.p1 q.p2 q.p3 &&
   0 ≤ pcross q.p2 q.p3 q.p0 && 0 ≤ pcross q.p3 q.p0 q.p1) ||
  (pcross q.p0 q.p1 q.p2 ≤ 0 && pcross q.p1 q.p2 q.p3 ≤ 0 &&
   pcross q.p2 q.p3 q.p0 ≤ 0 && pcross q.p3 q.p0 q.p1 ≤ 0)

/-- The side-length filter of detect.py lines 88-105: with a zero minimum
side the ratio is `inf` and the candidate is rejected; otherwise accept iff
`max/min ≤ 1.5`, i.e. `4·max² ≤ 9·min²`. -/
def aspect_ok (q : Quad) : Bool :=
  0 < minSideSq q && 4 * maxSideSq q ≤ 9 * minSideSq q

/-- The full candidate filter of the detection loop
(detect.py lines 70-107): area at least 5000 (`2·area = |shoelace2|`),
four convex vertices, side ratio at most 1.5. -/
def candidate_ok (q : Quad) : Bool :=
  10000 ≤ (shoelace2 q).natAbs && is_contour_convex q && aspect_ok q

/-- One step of the `largest_contour` scan (detect.py lines 83-107): a
candidate replaces the current best when it passes the filter and its area
strictly exceeds the best area so far (`max_area` starts at 0 and every
passing candidate has positive area). -/
def best_step (best : Option Quad) (q : Quad) : Option Quad :=
  if candidate_ok q &&
     (match best with
      | some b => decide ((shoelace2 b).natAbs < (shoelace2 q).natAbs)
      | none => true) then some q
  else best

/-- The `largest_contour` selection of detect.py lines 66-107: scan the
candidates in contour order, keeping the passing candidate of strictly
largest area. -/
def best_candidate (cands : List Quad) : Option Quad :=
  cands.foldl best_step none

/-- The corner store of a successful outer-quad detection
(detect.py lines 109-118): `self.corners = self.order_points(...)` on the
winning candidate; `none` when no candidate passes (the previous corners are
carried, untouched). -/
def stored_corners (cands : List Quad) : Option Quad :=
  match best_candidate cands with
  | some q => some (order_points q)
  | none => none

/-- Modelled from the spec: the published `Corners` invariant — the ordered
quadruple traverses a convex quadrilateral clockwise in image coordinates
(all four consecutive cross products strictly positive, which also rules out
repeated points and three collinear points) with max/min side ratio at most
1.5. -/
def spec_corners_invariant (q : Quad) : Bool :=
  0 < pcross q.p0 q.p1 q.p2 && 0 < pcross q.p1 q.p2 q.p3 &&
  0 < pcross q.p2 q.p3 q.p0 && 0 < pcross q.p3 q.p0 q.p1 &&
  aspect_ok q

/-! ### JSON extraction (mentor_module.py `SolutionAgent._extract_json`)

The function is modelled character by character on `List Char`:
`re.sub(r"```json\s*", "", text, flags=IGNORECASE)` and
`re.sub(r"```", "", text)` are left-to-right non-overlapping removals,
`str.strip()` drops surrounding whitespace, and
`re.search(r"\x7b[\s\S]*\x7d", text)` — a leftmost match with a greedy
middle — spans from the first opening brace that has a closing brace after
it up to the last closing brace of the string.  The `try/except` wrapper is
dead code since none of these operations raise.  Backtick and brace
characters are spelled by code point. -/

/-- The backtick character. -/
def btick : Char := Char.ofNat 96

/-- The opening-brace character. -/
def lcurl : Char := Char.ofNat 123

/-- The closing-brace character. -/
def rcurl : Char := Char.ofNat 125

/-- Case-insensitive match of the four letters of `json`
(`flags=re.IGNORECASE`). -/
def fence_word (c1 c2 c3 c4 : Char) : Bool :=
  (c1 = 'j' || c1 = 'J') && (c2 = 's' || c2 = 'S') &&
  (c3 = 'o' || c3 = 'O') && (c4 = 'n' || c4 = 'N')

/-- `re.sub(r"```json\s*", "", text, flags=IGNORECASE)`: scan left to right;
where three backticks followed by `json` begin, drop them together with the
following whitespace run and continue after it; otherwise keep one character
and continue. -/
def remove_fence : List Char → List Char
  | a :: b :: c :: d :: e :: f :: g :: rest =>
    if a = btick && b = btick && c = btick && fence_word d e f g then
      remove_fence (rest.dropWhile pySpace)
    else
      a :: remove_fence (b :: c :: d :: e :: f :: g :: rest)
  | l => l
termination_by l => l.length
decreasing_by
  · simp only [List.length_cons]
    have h := List.Sublist.length_le (List.dropWhile_sublist (p := pySpace) (l := rest))
    omega
  · simp only [List.length_cons]
    omega

/-- `re.sub(r"```", "", text)`: remove every left-to-right non-overlapping
occurrence of three backticks. -/
def remove_ticks : List Char → List Char
  | a :: b :: c :: rest =>
    if a = btick && b = btick && c = btick then remove_ticks rest
    else a :: remove_ticks (b :: c :: rest)
  | l => l

/-- The prefix of `l` ending at its last closing brace
(empty when `l` has none). -/
def upto_last_close (l : List Char) : List Char :=
  (l.reverse.dropWhile (fun c => !(c = rcurl))).reverse

/-- The suffix of `l` starting at its first opening brace
(empty when `l` has none). -/
def from_first_open (l : List Char) : List Char :=
  l.dropWhile (fun c => !(c = lcurl))

/-- The value of `re.search(r"\x7b[\s\S]*\x7d", l)`: the leftmost match with
greedy middle runs from the first opening brace that precedes the last
closing brace, through that last closing brace; the empty list encodes "no
match". -/
def brace_match (l : List Char) : List Char :=
  from_first_open (upto_last_close l)

/-- `SolutionAgent._extract_json` (mentor_module.py lines 169-185) on
character lists: strip fence markers and whitespace, then return the brace
span when the regex matches and the cleaned text otherwise. -/
def extract_json (s : List Char) : List Char :=
  let t := strip_chars (remove_ticks (remove_fence s))
  let m := brace_match t
  if m.isEmpty then t else m

/-- `SolutionAgent._extract_json` on strings. -/
def extract_json_str (s : String) : String :=
  String.mk (extract_json s.toList)

/-- `u` occurs contiguously inside `l`. -/
def contains_seq (u l : List Char) : Prop :=
  ∃ a b, l = a ++ u ++ b

/-- Three backticks, the fence marker both substitutions remove. -/
def tick3 : List Char := [btick, btick, btick]

/-! ### Preview URL builder (tasks/talk/image_test.py `ImageGenAgent`)

`urllib.parse.quote` works on the UTF-8 encoding of the prompt, so the
builder is modelled on byte lists (`List Nat`, each element `< 256`): the
prompt bytes are a parameter, the ASCII template pieces come from string
literals. -/

/-- Bytes of an ASCII string literal. -/
def strBytes (s : String) : List Nat :=
  s.toList.map Char.toNat

/-- A byte `urllib.parse.quote` leaves unescaped with the default
`safe='/'`: ASCII letters, digits, `_ . - ~` and `/`. -/
def safeByte (b : Nat) : Bool :=
  (65 ≤ b && b ≤ 90) || (97 ≤ b && b ≤ 122) || (48 ≤ b && b ≤ 57) ||
  b = 95 || b = 46 || b = 45 || b = 126 || b = 47

/-- Upper-case hexadecimal digit of a value below 16, as a byte. -/
def hexB (n : Nat) : Nat :=
  if n < 10 then 48 + n else 55 + n

/-- Value of a hexadecimal digit byte. -/
def hexV (n : Nat) : Nat :=
  if n ≤ 57 then n - 48 else n - 55

/-- `urllib.parse.quote(s, safe='/')` on bytes: safe bytes pass through,
every other byte becomes `%` (byte 37) followed by two upper-case hex
digits. -/
def quoteBytes : List Nat → List Nat
  | [] => []
  | b :: rest =>
    (if safeByte b then [b] else [37, hexB (b / 16), hexB (b % 16)]) ++ quoteBytes rest

/-- Percent-decoding, the inverse of `quoteBytes` on well-formed input. -/
def unquoteBytes : List Nat → List Nat
  | b :: h :: l :: rest =>
    if b = 37 then (16 * hexV h + hexV l) :: unquoteBytes rest
    else b :: unquoteBytes (h :: l :: rest)
  | b :: rest => b :: unquoteBytes rest
  | [] => []

/-- The fixed photorealistic suffix of image_test.py lines 34-38. -/
def photoreal_suffix : List Nat :=
  strBytes ", documentary photograph shot on dslr, macro lens close-up, tangible textures, rough materials, messy wiring, natural workshop lighting, film grain, sharp focus"

/-- The fixed negative-constraint suffix of image_test.py lines 42-45. -/
def negative_constraints : List Nat :=
  strBytes ", NOT cartoon, NOT 3d render, NOT cgi, NOT anime, NOT blender, no smooth plastic, no perfect shapes"

/-- The URL head of image_test.py line 64. -/
def url_head : List Nat :=
  strBytes "https://image.pollinations.ai/prompt/"

/-- Decimal digits of a number, as bytes. -/
def natDecimal (n : Nat) : List Nat :=
  strBytes (toString n)

/-- The query-parameter tail of image_test.py line 65. -/
def query_tail (modelName : List Nat) (width height seed : Nat) : List Nat :=
  strBytes "?model=" ++ modelName ++
  strBytes "&width=" ++ natDecimal width ++
  strBytes "&height=" ++ natDecimal height ++
  strBytes "&seed=" ++ natDecimal seed ++
  strBytes "&nologo=true&enhance=false"

/-- `ImageGenAgent.generate_image` (image_test.py lines 17-72): a falsy
prompt returns `None`; otherwise the full prompt is the user prompt followed
by the two fixed suffixes, URL-encoded into the pollinations URL with the
configured model name, width and height and the freshly drawn `seed`.  The
`try/except` is dead on this path (string formatting does not raise). -/
def generate_image (prompt : List Nat) (modelName : List Nat)
    (width height seed : Nat) : Option (List Nat) :=
  if prompt.isEmpty then none
  else
    some (url_head ++
          quoteBytes (prompt ++ photoreal_suffix ++ negative_constraints) ++
          query_tail modelName width height seed)

/-- The seed is drawn by `random.randint(0, 1000000)` (image_test.py
line 57): every integer in `[0, 1000000]` and nothing else. -/
def possible_seed (n : Nat) : Prop := n ≤ 1000000

/-- Modelled from the spec: "a freshly drawn random 32-bit seed" — the draw
should range over all 32-bit values. -/
def spec_seed32 (n : Nat) : Prop := n < 4294967296

/-! ### Concrete fixtures used by witnesses and counterexamples -/

/-- Number of `voice_error` events in a trace. -/
def voice_error_count (evs : List Event) : Nat :=
  evs.countP (fun e => e.state = "voice_error")

/-- Terminal-event count `run_ai_pipeline` actually produces, by stage
outcome: one `error` after an exception, one `complete` after two truthy
stages, and none at all when Vision or Solution returns a falsy result. -/
def expected_terminal (env : PipelineEnv) : Nat :=
  match env.vision with
  | .raised _ => 1
  | .noResult => 0
  | .ok _ =>
    match env.solution with
    | .raised _ => 1
    | .noResult => 0
    | .ok _ => 1

/-- A sample Vision stage result. -/
def visionJ : Json :=
  .obj [("project_title", .str "智能浇花器"),
        ("visual_components", .arr [.str "花盆", .str "水管"]),
        ("user_intent_analysis", .str "自动给植物浇水")]

/-- A sample Solution stage result. -/
def solutionJ : Json :=
  .obj [("project_name", .str "智能浇花器"),
        ("core_idea", .str "湿度传感器控制水泵"),
        ("materials", .arr [.str "Arduino", .str "水泵"]),
        ("steps", .arr [.str "接线", .str "编程"]),
        ("learning_outcomes", .arr [.str "电路知识"]),
        ("image_prompt", .str "a DIY automatic plant watering device")]

/-- The `AIManager` state right after `__init__`
(ai_manager.py lines 32-39, mentor_module.py lines 23-27). -/
def ai_init : AIManagerState :=
  { is_processing := false, status_message := "Ready",
    last_vision_result := none, last_solution_result := none,
    last_complete_result := none,
    solution_agent := { history := [], conversation_history := [], current_solution := none } }

/-- A fully successful capture environment. -/
def okEnv : PipelineEnv :=
  { vision := .ok visionJ, solution := .ok solutionJ,
    preview := some "https://image.pollinations.ai/prompt/a%20DIY%20device",
    image_rel := "images/capture_20250101_120000.jpg",
    preview_rel := some "images/generated_20250101_120030.jpg",
    timestamp := "2025-01-01T12:00:30" }

/-- A capture environment whose Vision stage returns a falsy result. -/
def envVisionNone : PipelineEnv :=
  { okEnv with vision := .noResult }

/-- The manager state after a completed capture (Result mode). -/
def ai_result_state : AIManagerState :=
  { is_processing := false, status_message := "Pipeline Complete! Check Console.",
    last_vision_result := some visionJ, last_solution_result := some solutionJ,
    last_complete_result :=
      some (.obj [("vision", visionJ), ("solution", solutionJ),
                  ("preview_url", .str "https://image.pollinations.ai/prompt/a%20DIY%20device"),
                  ("timestamp", .str "2025-01-01T12:00:30")]),
    solution_agent := { history := [], conversation_history := [],
                        current_solution := some solutionJ } }

/-- Result-mode state that additionally carries dialogue memory from a chat
refinement turn. -/
def ai_chat_state : AIManagerState :=
  { ai_result_state with
    solution_agent :=
      { history := [("user", "把它做得更便宜"), ("assistant", "可以换用回收材料。")],
        conversation_history := [("user", "把它做得更便宜")],
        current_solution := some solutionJ } }

/-- A fresh web-manager state. -/
def web_init : WebState :=
  { latest_status := initialStatus, event_queue := [] }

/-- One previously written session-log file. -/
def files0 : LogDir :=
  [("2025-01-01_115500_ab12cd.json", [.str "之前会话的记录"])]

/-- `SparkBoxApp` state in Result mode, all cooldowns long expired. -/
def app_result_state : AppState :=
  { ai := ai_result_state, last_capture_time := 0, last_reset_time := 0,
    in_voice_mode := false, video_release_required := false, frame_available := true }

/-- A square canvas seen straight on: the candidate the happy-path detection
accepts. -/
def squareQ : Quad :=
  { p0 := { x := 0, y := 0 }, p1 := { x := 200, y := 0 },
    p2 := { x := 200, y := 200 }, p3 := { x := 0, y := 200 } }

/-- The same canvas rotated 45 degrees: a perfectly valid physical placement
that passes every candidate filter. -/
def diamondQ : Quad :=
  { p0 := { x := 100, y := 0 }, p1 := { x := 200, y := 100 },
    p2 := { x := 100, y := 200 }, p3 := { x := 0, y := 100 } }

/-! ### C1 — terminal events of a capture job -/

/-- C1, counterexample.  The claim says every accepted capture job
eventually emits exactly one terminal event (`complete` or a stage `error`),
"including the paths in which the Vision or Solution stage produces no
result".  On the path where the Vision adapter returns a falsy result,
`run_ai_pipeline` merely sets `status_message = "Vision Failed"` and
returns: the trace contains zero terminal events, not one (the busy slot is
still released). -/
theorem c1_pipeline_missing_terminal_event :
    terminal_count (run_ai_pipeline ai_init envVisionNone).events = 0 ∧
    terminal_count (run_ai_pipeline ai_init envVisionNone).events ≠ 1 ∧
    (run_ai_pipeline ai_init envVisionNone).ai.is_processing = false := by
  refine ⟨rfl, by decide, rfl⟩

/-- C1, amended.  Every capture job releases the busy slot on every
termination path, and it emits exactly one terminal event when both Vision
and Solution return truthy results or when a stage raises — but zero
terminal events on the paths where Vision or Solution returns no result,
which end silently. -/
theorem c1_pipeline_terminal_events (ai : AIManagerState) (env : PipelineEnv) :
    (run_ai_pipeline ai env).ai.is_processing = false ∧
    terminal_count (run_ai_pipeline ai env).events = expected_terminal env := by
  rcases env with ⟨v, s, p, ir, pr, ts⟩
  cases v <;> cases s <;>
    simp [run_ai_pipeline, expected_terminal, terminal_count,
          List.countP_cons, List.countP_append, List.countP_nil]

/-! ### C2 — capture press in Result mode -/

/-- C2.  In Result mode (a completed project stored, no job running, all
cooldowns expired) a capture press is supposed to perform a reset; the code
instead evaluates `self.ai_manager.has_result`, an attribute `AIManager`
never defines, so `handle_gpio` raises `AttributeError` — no `control`
"Reset" event is pushed, the mode does not change, and nothing is reset. -/
theorem c2_capture_press_in_result_raises :
    handle_gpio_capture app_result_state true 100 = .error .attributeError := by
  norm_num [handle_gpio_capture, lookup_has_result, ai_manager_attr_names,
            app_result_state, ai_result_state, capture_cooldown,
            Bind.bind, Except.bind]
  simp

/-! ### C3 — /api/status versus the last published event -/

/-- C3, counterexample.  Run the happy-path capture from the initial state
and publish its events on the bus: the most recently published event is
`complete` / "Analysis Complete!", and the bus retains it, yet `api_status`
answers state `"ready"` with message `"Pipeline Complete! Check Console."` —
the snapshot does not equal the last event's state and message. -/
theorem c3_api_status_not_latest_event :
    (push_events web_init (run_ai_pipeline ai_init okEnv).events).latest_status.state
      = "complete" ∧
    (push_events web_init (run_ai_pipeline ai_init okEnv).events).latest_status.message
      = "Analysis Complete!" ∧
    (api_status (some (run_ai_pipeline ai_init okEnv).ai)).get "state"
      = some (.str "ready") ∧
    (api_status (some (run_ai_pipeline ai_init okEnv).ai)).get "message"
      = some (.str "Pipeline Complete! Check Console.") ∧
    ("ready" : String) ≠ "complete" ∧
    ("Pipeline Complete! Check Console." : String) ≠ "Analysis Complete!" := by
  refine ⟨rfl, rfl, rfl, rfl, by decide, by decide⟩

/-- C3, amended.  `push_event` does retain every published event as
`latest_status` for late subscribers, but `GET /api/status` does not read
it: the snapshot is computed from the `AIManager` fields alone — state
`"processing"`/`"ready"` by the `is_processing` flag, message
`status_message`. -/
theorem c3_api_status_from_manager (w : WebState) (s m : String) (d : Option Json)
    (ai : AIManagerState) :
    (push_event w s m d).latest_status = { state := s, message := m, data := d } ∧
    api_status (some ai) =
      .obj [("state", .str (if ai.is_processing then "processing" else "ready")),
            ("message", .str ai.status_message),
            ("data", get_status ai)] :=
  ⟨rfl, rfl⟩

/-! ### C4 — empty / "null" transcripts on the two voice-stop paths -/

/-- C4, counterexample.  On the GPIO push-to-talk release path
(`process_voice_after_record`) a transcript of the string `"null"` is
truthy, so it is submitted to chat: `SolutionAgent.chat` is invoked and no
`voice_error` event is emitted — the claim's guarantee fails on this
path. -/
theorem c4_gpio_null_transcript_reaches_chat :
    (process_voice_after_record ai_result_state (some "null") (.ok "好的，没问题。")).solution_chat_called
      = true ∧
    voice_error_count
      (process_voice_after_record ai_result_state (some "null") (.ok "好的，没问题。")).events
      = 0 := by
  refine ⟨rfl, rfl⟩

/-- C4, amended.  On the HTTP `POST /api/voice/stop` path
(`transcribe_and_chat`) an empty or `"null"` transcript emits exactly one
`voice_error` event and never reaches `SolutionAgent.chat`; the GPIO release
path guards only on truthiness — any non-empty transcript, `"null"`
included, is pushed as `voice_user` and forwarded to `run_chat_ai`. -/
theorem c4_voice_stop_paths (ai : AIManagerState) (up : Except String String)
    (t : Option String) (s : String)
    (hval : transcript_valid t = false) (hs : s ≠ "") :
    (voice_error_count (transcribe_and_chat ai t up).events = 1 ∧
     (transcribe_and_chat ai t up).solution_chat_called = false) ∧
    ((process_voice_after_record ai (some s) up).events
        = { state := "voice_user", message := s, data := none }
            :: (run_chat_ai ai s up).events ∧
     (process_voice_after_record ai (some s) up).solution_chat_called
        = (run_chat_ai ai s up).solution_chat_called) := by
  constructor
  · simp [transcribe_and_chat, hval, voice_error_count, List.countP_cons]
  · simp [process_voice_after_record, hs]

/-- C4, witness: the amended statement evaluated at a `"null"` transcript on
the HTTP path and a non-empty transcript on the GPIO path. -/
theorem c4_voice_stop_paths_witness :
    transcript_valid (some "null") = false ∧
    ("让它更便宜" : String) ≠ "" ∧
    ((voice_error_count (transcribe_and_chat ai_result_state (some "null") (.ok "好的")).events = 1 ∧
      (transcribe_and_chat ai_result_state (some "null") (.ok "好的")).solution_chat_called = false) ∧
     ((process_voice_after_record ai_result_state (some "让它更便宜") (.ok "好的")).events
         = { state := "voice_user", message := "让它更便宜", data := none }
             :: (run_chat_ai ai_result_state "让它更便宜" (.ok "好的")).events ∧
      (process_voice_after_record ai_result_state (some "让它更便宜") (.ok "好的")).solution_chat_called
         = (run_chat_ai ai_result_state "让它更便宜" (.ok "好的")).solution_chat_called)) :=
  ⟨by decide, by decide,
   c4_voice_stop_paths ai_result_state (.ok "好的") (some "null") "让它更便宜"
     (by decide) (by decide)⟩

/-! ### C5 — reset clears results but not files; dialogue memory -/

/-- C5, counterexample.  `POST /api/reset` is claimed to clear the dialogue
memory; in fact `reset_results` touches only the stored results, so after a
reset the `SolutionAgent`'s `conversation_history` and `history` still hold
the previous turns. -/
theorem c5_reset_keeps_dialogue_memory :
    (api_reset web_init ai_chat_state files0).ai.solution_agent.conversation_history
      = [("user", "把它做得更便宜")] ∧
    [("user", "把它做得更便宜")] ≠ ([] : List (String × String)) ∧
    (api_reset web_init ai_chat_state files0).ai.solution_agent.history
      = [("user", "把它做得更便宜"), ("assistant", "可以换用回收材料。")] := by
  refine ⟨rfl, by decide, rfl⟩

/-- C5, amended.  A `POST /api/reset` while no job is running answers
`{"status":"reset_ok"}`, clears the stored vision, solution and complete
results (so `/api/result` returns the no-results sentinel), and leaves every
previously written session-log file untouched — but the dialogue memory
(`SolutionAgent` state) is not cleared; only the next capture's
`clear_memory` drops it. -/
theorem c5_reset_effects (w : WebState) (ai : AIManagerState) (files : LogDir) :
    (api_reset w ai files).response = .obj [("status", .str "reset_ok")] ∧
    (api_reset w ai files).files = files ∧
    (api_reset w ai files).ai.last_vision_result = none ∧
    (api_reset w ai files).ai.last_solution_result = none ∧
    (api_reset w ai files).ai.last_complete_result = none ∧
    (api_reset w ai files).ai.is_processing = false ∧
    (api_reset w ai files).ai.solution_agent = ai.solution_agent ∧
    api_result (some (api_reset w ai files).ai) = .obj [("error", .str "No results available")] :=
  ⟨rfl, rfl, rfl, rfl, rfl, rfl, rfl, rfl⟩

/-! ### C9 — upstream chat failure is surfaced as a successful reply -/

/-- C9.  When the upstream chat completion raises, `SolutionAgent.chat`
returns the fixed apology string, and `run_chat_ai` treats it as a
successful reply: one `voice_user`, one `voice_processing` and one
`voice_response` carrying the apology, an "ai" (assistant) text turn in the
session log, no `voice_error`, and the slot released. -/
theorem c9_upstream_failure_apology (ai : AIManagerState) (text err : String) (v sol : Json)
    (h1 : ai.is_processing = false) (h2 : ai.last_vision_result = some v)
    (h3 : ai.solution_agent.current_solution = some sol) (h4 : text ≠ "") :
    (run_chat_ai ai text (.error err)).events =
      [{ state := "voice_user", message := text,
         data := some (.obj [("user_text", .str text)]) },
       { state := "voice_processing", message := "AI正在思考...", data := none },
       { state := "voice_response", message := "抱歉，我暂时无法回答。",
         data := some (.obj [("ai_text", .str "抱歉，我暂时无法回答。")]) }] ∧
    (run_chat_ai ai text (.error err)).logs =
      [{ role := "user", kind := "text", content := text },
       { role := "ai", kind := "text", content := "抱歉，我暂时无法回答。" }] ∧
    voice_error_count (run_chat_ai ai text (.error err)).events = 0 ∧
    (run_chat_ai ai text (.error err)).ai.is_processing = false := by
  simp [run_chat_ai, h1, h2, h3, h4, SolutionAgent.chat,
        voice_error_count, List.countP_cons, List.countP_append]

/-- C9, witness: the apology path evaluated in the Result-mode state with a
raising upstream. -/
theorem c9_upstream_failure_apology_witness :
    ai_result_state.is_processing = false ∧
    ai_result_state.last_vision_result = some visionJ ∧
    ai_result_state.solution_agent.current_solution = some solutionJ ∧
    ("让它更便宜" : String) ≠ "" ∧
    voice_error_count (run_chat_ai ai_result_state "让它更便宜" (.error "timeout")).events = 0 :=
  ⟨rfl, rfl, rfl, by decide,
   (c9_upstream_failure_apology ai_result_state "让它更便宜" "timeout" visionJ solutionJ
     rfl rfl rfl (by decide)).2.2.1⟩

/-! ### C10 — appending to a corrupt session log -/

/-- C10.  When the current session-log file exists but does not parse to a
list (unreadable or holding a non-list value), `_append_log_entries`
silently rewrites it to hold exactly the new entries, discarding everything
previously logged; an absent file behaves the same, and only a parsed list
is preserved and extended.  The function raises nothing and pushes no
event. -/
theorem c10_append_log_corrupt_resets (entries prev : List Json) (v : Json) :
    append_log_entries .unreadable entries = .list entries ∧
    append_log_entries (.nonList v) entries = .list entries ∧
    append_log_entries .absent entries = .list entries ∧
    append_log_entries (.list prev) entries = .list (prev ++ entries) :=
  ⟨rfl, rfl, rfl, rfl⟩

/-! ### C6 — the stored Corners quadruple -/

/-- `pick_min` picks a value that is minimal among the four. -/
theorem pick_min_le (f : Pt → Int) (q : Quad) :
    f (pick_min f q) ≤ f q.p0 ∧ f (pick_min f q) ≤ f q.p1 ∧
    f (pick_min f q) ≤ f q.p2 ∧ f (pick_min f q) ≤ f q.p3 := by
  unfold pick_min
  split_ifs <;> omega

/-- `pick_max` picks a value that is maximal among the four. -/
theorem pick_max_ge (f : Pt → Int) (q : Quad) :
    f q.p0 ≤ f (pick_max f q) ∧ f q.p1 ≤ f (pick_max f q) ∧
    f q.p2 ≤ f (pick_max f q) ∧ f q.p3 ≤ f (pick_max f q) := by
  unfold pick_max
  split_ifs <;> omega

/-- `pick_min` returns one of the four input points. -/
theorem pick_min_mem (f : Pt → Int) (q : Quad) :
    pick_min f q = q.p0 ∨ pick_min f q = q.p1 ∨
    pick_min f q = q.p2 ∨ pick_min f q = q.p3 := by
  unfold pick_min
  split_ifs <;> simp

/-- `pick_max` returns one of the four input points. -/
theorem pick_max_mem (f : Pt → Int) (q : Quad) :
    pick_max f q = q.p0 ∨ pick_max f q = q.p1 ∨
    pick_max f q = q.p2 ∨ pick_max f q = q.p3 := by
  unfold pick_max
  split_ifs <;> simp

/-- Whatever the detection scan returns passed the candidate filter. -/
theorem foldl_best_ok (cands : List Quad) :
    ∀ (acc : Option Quad) (q : Quad),
      (∀ b, acc = some b → candidate_ok b = true) →
      cands.foldl best_step acc = some q → candidate_ok q = true := by
  induction cands with
  | nil =>
    intro acc q hacc h
    exact hacc q h
  | cons c cs ih =>
    intro acc q hacc h
    refine ih (best_step acc c) q ?_ h
    intro b hb
    unfold best_step at hb
    split at hb
    · cases hb
      rename_i hcond
      exact ((Bool.and_eq_true _ _).mp hcond).1
    · exact hacc b hb

/-- `best_candidate` only returns candidates passing the filter. -/
theorem best_candidate_ok (cands : List Quad) (q : Quad)
    (h : best_candidate cands = some q) : candidate_ok q = true :=
  foldl_best_ok cands none q (fun b hb => by cases hb) h

/-- C6, counterexample.  The canvas rotated 45 degrees passes every filter
of the detection loop (area 20000 ≥ 5000, convex, all sides equal), yet
`order_points` assigns the same vertex to TL and TR (its top corner
minimizes both x+y and y−x), so the stored quadruple has a repeated point —
it is not a clockwise convex quadrilateral with no three collinear points,
and its zero-length side violates the 1.5 side-ratio bound. -/
theorem c6_rotated_square_breaks_invariant :
    candidate_ok diamondQ = true ∧
    stored_corners [diamondQ] = some (order_points diamondQ) ∧
    (order_points diamondQ).p0 = (order_points diamondQ).p1 ∧
    spec_corners_invariant (order_points diamondQ) = false := by
  refine ⟨by decide, by decide, by decide, by decide⟩

/-- C6, amended.  Every Corners quadruple stored after a successful
outer-quad detection is `order_points` of a candidate that passed the
filter (convex in its boundary order, area ≥ 5000, side ratio ≤ 1.5 before
reordering), and its four slots satisfy exactly the argmin/argmax
characterization: TL minimizes x+y, TR minimizes y−x, BR maximizes x+y and
BL maximizes y−x over the candidate's points, each slot holding one of those
points — the clockwise/convex/no-collinear/ratio invariant need not survive
the relabelling. -/
theorem c6_stored_corners_order (cands : List Quad) (r : Quad)
    (h : stored_corners cands = some r) :
    ∃ q, best_candidate cands = some q ∧ candidate_ok q = true ∧ r = order_points q ∧
      (psum r.p0 ≤ psum q.p0 ∧ psum r.p0 ≤ psum q.p1 ∧
       psum r.p0 ≤ psum q.p2 ∧ psum r.p0 ≤ psum q.p3) ∧
      (pdiff r.p1 ≤ pdiff q.p0 ∧ pdiff r.p1 ≤ pdiff q.p1 ∧
       pdiff r.p1 ≤ pdiff q.p2 ∧ pdiff r.p1 ≤ pdiff q.p3) ∧
      (psum q.p0 ≤ psum r.p2 ∧ psum q.p1 ≤ psum r.p2 ∧
       psum q.p2 ≤ psum r.p2 ∧ psum q.p3 ≤ psum r.p2) ∧
      (pdiff q.p0 ≤ pdiff r.p3 ∧ pdiff q.p1 ≤ pdiff r.p3 ∧
       pdiff q.p2 ≤ pdiff r.p3 ∧ pdiff q.p3 ≤ pdiff r.p3) ∧
      ((r.p0 = q.p0 ∨ r.p0 = q.p1 ∨ r.p0 = q.p2 ∨ r.p0 = q.p3) ∧
       (r.p1 = q.p0 ∨ r.p1 = q.p1 ∨ r.p1 = q.p2 ∨ r.p1 = q.p3) ∧
       (r.p2 = q.p0 ∨ r.p2 = q.p1 ∨ r.p2 = q.p2 ∨ r.p2 = q.p3) ∧
       (r.p3 = q.p0 ∨ r.p3 = q.p1 ∨ r.p3 = q.p2 ∨ r.p3 = q.p3)) := by
  unfold stored_corners at h
  cases hb : best_candidate cands with
  | none => rw [hb] at h; cases h
  | some q =>
    rw [hb] at h
    cases h
    refine ⟨q, rfl, best_candidate_ok cands q hb, rfl, ?_, ?_, ?_, ?_, ?_, ?_, ?_, ?_⟩
    · exact pick_min_le psum q
    · exact pick_min_le pdiff q
    · exact pick_max_ge psum q
    · exact pick_max_ge pdiff q
    · exact pick_min_mem psum q
    · exact pick_min_mem pdiff q
    · exact pick_max_mem psum q
    · exact pick_max_mem pdiff q

/-- C6, witness: the amended statement evaluated on the straight-on square
candidate, which `order_points` maps to itself. -/
theorem c6_stored_corners_order_witness :
    stored_corners [squareQ] = some (order_points squareQ) ∧
    (∃ q, best_candidate [squareQ] = some q ∧ candidate_ok q = true ∧
      order_points squareQ = order_points q ∧
      (psum (order_points squareQ).p0 ≤ psum q.p0 ∧
       psum (order_points squareQ).p0 ≤ psum q.p1 ∧
       psum (order_points squareQ).p0 ≤ psum q.p2 ∧
       psum (order_points squareQ).p0 ≤ psum q.p3) ∧
      (pdiff (order_points squareQ).p1 ≤ pdiff q.p0 ∧
       pdiff (order_points squareQ).p1 ≤ pdiff q.p1 ∧
       pdiff (order_points squareQ).p1 ≤ pdiff q.p2 ∧
       pdiff (order_points squareQ).p1 ≤ pdiff q.p3) ∧
      (psum q.p0 ≤ psum (order_points squareQ).p2 ∧
       psum q.p1 ≤ psum (order_points squareQ).p2 ∧
       psum q.p2 ≤ psum (order_points squareQ).p2 ∧
       psum q.p3 ≤ psum (order_points squareQ).p2) ∧
      (pdiff q.p0 ≤ pdiff (order_points squareQ).p3 ∧
       pdiff q.p1 ≤ pdiff (order_points squareQ).p3 ∧
       pdiff q.p2 ≤ pdiff (order_points squareQ).p3 ∧
       pdiff q.p3 ≤ pdiff (order_points squareQ).p3) ∧
      (((order_points squareQ).p0 = q.p0 ∨ (order_points squareQ).p0 = q.p1 ∨
        (order_points squareQ).p0 = q.p2 ∨ (order_points squareQ).p0 = q.p3) ∧
       ((order_points squareQ).p1 = q.p0 ∨ (order_points squareQ).p1 = q.p1 ∨
        (order_points squareQ).p1 = q.p2 ∨ (order_points squareQ).p1 = q.p3) ∧
       ((order_points squareQ).p2 = q.p0 ∨ (order_points squareQ).p2 = q.p1 ∨
        (order_points squareQ).p2 = q.p2 ∨ (order_points squareQ).p2 = q.p3) ∧
       ((order_points squareQ).p3 = q.p0 ∨ (order_points squareQ).p3 = q.p1 ∨
        (order_points squareQ).p3 = q.p2 ∨ (order_points squareQ).p3 = q.p3))) :=
  ⟨by decide, c6_stored_corners_order [squareQ] (order_points squareQ) (by decide)⟩

/-! ### C7 — the preview URL -/

/-- Hex encode/decode of a nibble round-trips. -/
theorem hexV_hexB (n : Nat) (h : n < 16) : hexV (hexB n) = n := by
  unfold hexV hexB
  split_ifs <;> omega

/-- A safe byte is not the percent sign. -/
theorem safe_ne_37 (b : Nat) (h : safeByte b = true) : b ≠ 37 := by
  intro he
  subst he
  exact absurd h (by decide)

/-- Decoding starts over a non-percent head byte. -/
theorem unquote_cons_ne_37 (b : Nat) (l : List Nat) (hne : b ≠ 37) :
    unquoteBytes (b :: l) = b :: unquoteBytes l := by
  cases l with
  | nil => rfl
  | cons x t =>
    cases t with
    | nil => rfl
    | cons y t2 => simp [unquoteBytes, hne]

/-- `unquoteBytes` inverts `quoteBytes` on byte lists. -/
theorem unquote_quote (bs : List Nat) (hb : ∀ b ∈ bs, b < 256) :
    unquoteBytes (quoteBytes bs) = bs := by
  induction bs with
  | nil => rfl
  | cons b rest ih =>
    have hb0 : b < 256 := hb b (List.mem_cons_self b rest)
    have hbr : ∀ x ∈ rest, x < 256 := fun x hx => hb x (List.mem_cons_of_mem b hx)
    by_cases hs : safeByte b = true
    · rw [show quoteBytes (b :: rest) = b :: quoteBytes rest by simp [quoteBytes, hs],
          unquote_cons_ne_37 b _ (safe_ne_37 b hs), ih hbr]
    · rw [show quoteBytes (b :: rest) =
            37 :: hexB (b / 16) :: hexB (b % 16) :: quoteBytes rest by
          simp [quoteBytes, hs]]
      rw [show unquoteBytes (37 :: hexB (b / 16) :: hexB (b % 16) :: quoteBytes rest) =
            (16 * hexV (hexB (b / 16)) + hexV (hexB (b % 16))) :: unquoteBytes (quoteBytes rest) by
          simp [unquoteBytes]]
      rw [hexV_hexB (b / 16) (by omega), hexV_hexB (b % 16) (by omega), ih hbr]
      congr 1
      omega

set_option maxRecDepth 8192 in
/-- Every byte of the fixed photorealistic suffix is a byte. -/
theorem photoreal_suffix_bytes : ∀ b ∈ photoreal_suffix, b < 256 := by decide

set_option maxRecDepth 8192 in
/-- Every byte of the fixed negative-constraint suffix is a byte. -/
theorem negative_constraints_bytes : ∀ b ∈ negative_constraints, b < 256 := by decide

/-- C7, counterexample.  The claim calls the query seed "a freshly drawn
random 32-bit seed"; the code draws `random.randint(0, 1000000)`, so the
32-bit value 4294967295 can never appear. -/
theorem c7_seed_not_32bit :
    spec_seed32 4294967295 ∧ ¬ possible_seed 4294967295 := by
  constructor
  · norm_num [spec_seed32]
  · norm_num [possible_seed]

/-- C7, amended.  For every non-empty prompt, `generate_image` returns
exactly the pollinations URL: the head
`https://image.pollinations.ai/prompt/`, the percent-encoding of the prompt
followed by the photorealistic suffix and the negative-constraint suffix
(`unquoteBytes` recovers the concatenation, so the encoding is faithful),
and query parameters with the configured model, width and height, the
freshly drawn seed — drawn from `[0, 1000000]`, not from the full 32-bit
range — and the flags `nologo=true&enhance=false`. -/
theorem c7_generate_image_url (prompt modelName : List Nat) (w h seed : Nat)
    (hp : prompt ≠ []) (hb : ∀ b ∈ prompt, b < 256) (hs : seed ≤ 1000000) :
    generate_image prompt modelName w h seed =
      some (url_head ++
            quoteBytes (prompt ++ photoreal_suffix ++ negative_constraints) ++
            query_tail modelName w h seed) ∧
    unquoteBytes (quoteBytes (prompt ++ photoreal_suffix ++ negative_constraints)) =
      prompt ++ photoreal_suffix ++ negative_constraints ∧
    possible_seed seed := by
  refine ⟨?_, ?_, hs⟩
  · simp [generate_image, hp]
  · apply unquote_quote
    intro b hbmem
    rcases List.mem_append.mp hbmem with hbm | hbm
    · rcases List.mem_append.mp hbm with hbm2 | hbm2
      · exact hb b hbm2
      · exact photoreal_suffix_bytes b hbm2
    · exact negative_constraints_bytes b hbm

/-- C7, witness: the URL construction evaluated at the one-byte prompt `h`,
the default model name and sizes, seed 42. -/
theorem c7_generate_image_url_witness :
    ([104] : List Nat) ≠ [] ∧ (∀ b ∈ ([104] : List Nat), b < 256) ∧ (42 : Nat) ≤ 1000000 ∧
    (generate_image [104] (strBytes "realvisxl") 1280 960 42 =
      some (url_head ++
            quoteBytes ([104] ++ photoreal_suffix ++ negative_constraints) ++
            query_tail (strBytes "realvisxl") 1280 960 42) ∧
     unquoteBytes (quoteBytes ([104] ++ photoreal_suffix ++ negative_constraints)) =
      [104] ++ photoreal_suffix ++ negative_constraints ∧
     possible_seed 42) :=
  ⟨by decide, by decide, by decide,
   c7_generate_image_url [104] (strBytes "realvisxl") 1280 960 42
     (by decide) (by decide) (by decide)⟩

/-! ### C8 — idempotence of the JSON extraction -/

-- ### generic contains_seq lemmas

theorem contains_seq_of_append (u a m b : List Char) (h : contains_seq u m) :
    contains_seq u (a ++ m ++ b) := by
  obtain ⟨x, y, rfl⟩ := h
  exact ⟨a ++ x, y ++ b, by simp⟩

theorem contains_seq_cons (u : List Char) (c : Char) (l : List Char) :
    contains_seq u (c :: l) ↔ (∃ t, c :: l = u ++ t) ∨ contains_seq u l := by
  constructor
  · rintro ⟨a, b, heq⟩
    cases a with
    | nil => exact Or.inl ⟨b, by simpa using heq⟩
    | cons a0 a' =>
      simp only [List.cons_append, List.cons.injEq] at heq
      exact Or.inr ⟨a', b, heq.2⟩
  · rintro (⟨t, ht⟩ | ⟨a, b, rfl⟩)
    · exact ⟨[], t, by simpa using ht⟩
    · exact ⟨c :: a, b, by simp⟩

theorem contains_seq_sub (u l a m b : List Char) (hl : ¬ contains_seq u l)
    (hm : l = a ++ m ++ b) : ¬ contains_seq u m := by
  intro h
  exact hl (hm ▸ contains_seq_of_append u a m b h)

-- tick3 prefix shape
theorem tick3_append (t : List Char) : tick3 ++ t = btick :: btick :: btick :: t := rfl

-- ### remove_ticks lemmas

theorem remove_ticks_short (l : List Char)
    (h : ∀ (a b c : Char) (rest : List Char), l = a :: b :: c :: rest → False) :
    remove_ticks l = l := by
  match l with
  | [] => rfl
  | [a] => rfl
  | [a, b] => rfl
  | a :: b :: c :: rest => exact absurd rfl (fun he => h a b c rest he)

theorem remove_ticks_cons_keep (a : Char) (l : List Char)
    (h : ∀ t, a :: l ≠ tick3 ++ t) : remove_ticks (a :: l) = a :: remove_ticks l := by
  match l with
  | [] => rfl
  | [b] => rfl
  | b :: c :: rest =>
    rw [remove_ticks, if_neg]
    intro hcond
    simp only [Bool.and_eq_true, decide_eq_true_eq] at hcond
    exact h rest (by rw [tick3_append, hcond.1.1, hcond.1.2, hcond.2])

-- head of remove_ticks when the list does not start with a tick
theorem remove_ticks_head_keep (a : Char) (l : List Char) (ha : a ≠ btick) :
    remove_ticks (a :: l) = a :: remove_ticks l := by
  apply remove_ticks_cons_keep
  intro t he
  rw [tick3_append] at he
  injection he with h1 h2
  exact ha h1

theorem contains_seq_cons_of (u : List Char) (c : Char) (l : List Char)
    (h : contains_seq u l) : contains_seq u (c :: l) :=
  (contains_seq_cons u c l).mpr (Or.inr h)

theorem remove_ticks_no (l : List Char) : ¬ contains_seq tick3 (remove_ticks l) := by
  induction l using remove_ticks.induct with
  | case1 a b c rest h ih =>
    rw [remove_ticks, if_pos h]
    exact ih
  | case2 a b c rest h ih =>
    rw [remove_ticks, if_neg h]
    rw [contains_seq_cons]
    rintro (⟨t, ht⟩ | hc)
    · rw [tick3_append] at ht
      injection ht with ha hX
      simp only [Bool.and_eq_true, decide_eq_true_eq] at h
      by_cases hb : b = btick
      · have hc2 : ¬ (c = btick) := by
          intro hcc
          exact h ⟨⟨ha, hb⟩, hcc⟩
        have h1 : remove_ticks (b :: c :: rest) = btick :: remove_ticks (c :: rest) := by
          rw [hb]
          apply remove_ticks_cons_keep
          intro t2 he2
          rw [tick3_append] at he2
          injection he2 with x1 he3
          injection he3 with x2 x3
          exact hc2 x2
        have h2 : remove_ticks (c :: rest) = c :: remove_ticks rest :=
          remove_ticks_head_keep c rest hc2
        rw [h1, h2] at hX
        injection hX with y1 hX2
        injection hX2 with y2 y3
        exact hc2 y2
      · have h1 : remove_ticks (b :: c :: rest) = b :: remove_ticks (c :: rest) :=
          remove_ticks_head_keep b (c :: rest) hb
        rw [h1] at hX
        injection hX with y1 y2
        exact hb y1
    · exact ih hc
  | case3 l h1 =>
    rw [remove_ticks_short l (fun a b c rest he => h1 a b c rest he)]
    rintro ⟨a, b, heq⟩
    have hlen : 3 ≤ l.length := by
      rw [heq]; simp [tick3]; omega
    cases l with
    | nil => simp at hlen
    | cons x l1 =>
      cases l1 with
      | nil => simp at hlen
      | cons y l2 =>
        cases l2 with
        | nil => simp at hlen
        | cons z r => exact h1 x y z r rfl

theorem remove_ticks_id (l : List Char) (h : ¬ contains_seq tick3 l) :
    remove_ticks l = l := by
  induction l using remove_ticks.induct with
  | case1 a b c rest hcond ih =>
    exfalso
    simp only [Bool.and_eq_true, decide_eq_true_eq] at hcond
    exact h ⟨[], rest, by rw [hcond.1.1, hcond.1.2, hcond.2]; simp [tick3]⟩
  | case2 a b c rest hcond ih =>
    rw [remove_ticks, if_neg hcond]
    rw [ih (fun hc => h (contains_seq_cons_of tick3 a _ hc))]
  | case3 l h1 =>
    exact remove_ticks_short l (fun a b c rest he => h1 a b c rest he)

-- ### remove_fence lemmas

theorem remove_fence_short (l : List Char)
    (h : ∀ (a b c d e f g : Char) (rest : List Char),
        l = a :: b :: c :: d :: e :: f :: g :: rest → False) :
    remove_fence l = l := by
  match l with
  | [] => simp [remove_fence]
  | [a] => simp [remove_fence]
  | [a, b] => simp [remove_fence]
  | [a, b, c] => simp [remove_fence]
  | [a, b, c, d] => simp [remove_fence]
  | [a, b, c, d, e] => simp [remove_fence]
  | [a, b, c, d, e, f] => simp [remove_fence]
  | a :: b :: c :: d :: e :: f :: g :: rest => exact absurd rfl (fun he => h a b c d e f g rest he)

theorem remove_fence_id (l : List Char) (h : ¬ contains_seq tick3 l) :
    remove_fence l = l := by
  induction l using remove_fence.induct with
  | case1 a b c d e f g rest hcond ih =>
    exfalso
    simp only [Bool.and_eq_true, decide_eq_true_eq] at hcond
    exact h ⟨[], d :: e :: f :: g :: rest, by
      rw [hcond.1.1.1, hcond.1.1.2, hcond.1.2]; simp [tick3]⟩
  | case2 a b c d e f g rest hcond ih =>
    rw [remove_fence, if_neg hcond]
    rw [ih (fun hc => h (contains_seq_cons_of tick3 a _ hc))]
  | case3 l h1 =>
    exact remove_fence_short l (fun a b c d e f g rest he => h1 a b c d e f g rest he)

-- ### dropWhile / strip lemmas

theorem dropWhile_head_not (p : Char → Bool) (l : List Char) :
    ∀ c, (l.dropWhile p).head? = some c → p c = false := by
  induction l with
  | nil => intro c h; simp [List.dropWhile] at h
  | cons a t ih =>
    intro c h
    by_cases hp : p a
    · rw [List.dropWhile_cons_of_pos hp] at h
      exact ih c h
    · rw [List.dropWhile_cons_of_neg hp] at h
      simp only [List.head?_cons, Option.some.injEq] at h
      subst h
      simp only [Bool.not_eq_true] at hp
      exact hp

theorem dropWhile_eq_self_of_head (p : Char → Bool) (l : List Char)
    (h : ∀ c, l.head? = some c → p c = false) : l.dropWhile p = l := by
  cases l with
  | nil => rfl
  | cons a t =>
    rw [List.dropWhile_cons_of_neg]
    simp [h a rfl]

theorem dropWhile_sub (p : Char → Bool) (l : List Char) :
    ∃ a, l = a ++ l.dropWhile p :=
  ⟨l.takeWhile p, (List.takeWhile_append_dropWhile (p := p) (l := l)).symm⟩

theorem head?_append_left (x y : List Char) (c : Char) (h : x.head? = some c) :
    (x ++ y).head? = some c := by
  cases x with
  | nil => simp at h
  | cons a t => simpa using h

theorem strip_decomp (l : List Char) :
    ∃ ta tb, l = ta ++ strip_chars l ++ tb ∧
      l.dropWhile pySpace = strip_chars l ++ tb := by
  obtain ⟨ta, hA⟩ := dropWhile_sub pySpace l
  obtain ⟨tb, hC⟩ := dropWhile_sub pySpace (l.dropWhile pySpace).reverse
  have hA2 : l.dropWhile pySpace = strip_chars l ++ tb.reverse := by
    unfold strip_chars
    calc l.dropWhile pySpace
        = (l.dropWhile pySpace).reverse.reverse := (List.reverse_reverse _).symm
      _ = (tb ++ (l.dropWhile pySpace).reverse.dropWhile pySpace).reverse := by rw [← hC]
      _ = ((l.dropWhile pySpace).reverse.dropWhile pySpace).reverse ++ tb.reverse := by
          rw [List.reverse_append]
  refine ⟨ta, tb.reverse, ?_, hA2⟩
  conv_lhs => rw [hA, hA2]
  exact (List.append_assoc ta (strip_chars l) tb.reverse).symm

theorem strip_chars_sub (l : List Char) : ∃ a b, l = a ++ strip_chars l ++ b := by
  obtain ⟨ta, tb, h, _⟩ := strip_decomp l
  exact ⟨ta, tb, h⟩

theorem strip_chars_head (l : List Char) :
    ∀ c, (strip_chars l).head? = some c → pySpace c = false := by
  intro c h
  obtain ⟨ta, tb, _, hA2⟩ := strip_decomp l
  have h2 : (l.dropWhile pySpace).head? = some c := by
    rw [hA2]
    exact head?_append_left _ _ c h
  exact dropWhile_head_not pySpace l c h2

theorem strip_chars_revhead (l : List Char) :
    ∀ c, (strip_chars l).reverse.head? = some c → pySpace c = false := by
  intro c h
  unfold strip_chars at h
  rw [List.reverse_reverse] at h
  exact dropWhile_head_not pySpace _ c h

theorem strip_chars_fix (m : List Char)
    (hh : ∀ c, m.head? = some c → pySpace c = false)
    (hr : ∀ c, m.reverse.head? = some c → pySpace c = false) :
    strip_chars m = m := by
  unfold strip_chars
  rw [dropWhile_eq_self_of_head pySpace m hh,
      dropWhile_eq_self_of_head pySpace m.reverse hr,
      List.reverse_reverse]

theorem strip_chars_idem (l : List Char) :
    strip_chars (strip_chars l) = strip_chars l :=
  strip_chars_fix (strip_chars l) (strip_chars_head l) (strip_chars_revhead l)

-- ### brace lemmas

theorem from_first_sub (l : List Char) : ∃ a, l = a ++ from_first_open l :=
  dropWhile_sub _ l

theorem upto_sub (l : List Char) : ∃ b, l = upto_last_close l ++ b := by
  obtain ⟨t, hD⟩ := dropWhile_sub (fun c => !(c = rcurl)) l.reverse
  refine ⟨t.reverse, ?_⟩
  unfold upto_last_close
  calc l = l.reverse.reverse := (List.reverse_reverse _).symm
    _ = (t ++ l.reverse.dropWhile (fun c => !(c = rcurl))).reverse := by rw [← hD]
    _ = (l.reverse.dropWhile (fun c => !(c = rcurl))).reverse ++ t.reverse := by
        rw [List.reverse_append]

theorem brace_match_sub (l : List Char) : ∃ a b, l = a ++ brace_match l ++ b := by
  obtain ⟨b0, hU⟩ := upto_sub l
  obtain ⟨a0, hF⟩ := from_first_sub (upto_last_close l)
  refine ⟨a0, b0, ?_⟩
  show l = a0 ++ from_first_open (upto_last_close l) ++ b0
  calc l = upto_last_close l ++ b0 := hU
    _ = a0 ++ from_first_open (upto_last_close l) ++ b0 := by rw [← hF]

theorem from_first_open_head (l : List Char) (c : Char)
    (h : (from_first_open l).head? = some c) : c = lcurl := by
  have h2 := dropWhile_head_not (fun c => !(c = lcurl)) l c h
  simpa using h2

theorem upto_last_close_revhead (l : List Char) (c : Char)
    (h : (upto_last_close l).reverse.head? = some c) : c = rcurl := by
  unfold upto_last_close at h
  rw [List.reverse_reverse] at h
  have h2 := dropWhile_head_not (fun c => !(c = rcurl)) l.reverse c h
  simpa using h2

theorem brace_match_head (l : List Char) (c : Char)
    (h : (brace_match l).head? = some c) : c = lcurl :=
  from_first_open_head _ c h

theorem brace_match_revhead (l : List Char) (c : Char)
    (h : (brace_match l).reverse.head? = some c) : c = rcurl := by
  obtain ⟨a0, hF⟩ := from_first_sub (upto_last_close l)
  have h2 : (upto_last_close l).reverse.head? = some c := by
    rw [hF, List.reverse_append]
    exact head?_append_left _ _ c h
  exact upto_last_close_revhead l c h2

theorem brace_match_fix (m : List Char)
    (h1 : m.head? = some lcurl) (h2 : m.reverse.head? = some rcurl) :
    brace_match m = m := by
  unfold brace_match upto_last_close from_first_open
  rw [dropWhile_eq_self_of_head _ m.reverse (by
        intro c hc
        rw [h2] at hc
        injection hc with hc2
        subst hc2
        decide),
      List.reverse_reverse,
      dropWhile_eq_self_of_head _ m (by
        intro c hc
        rw [h1] at hc
        injection hc with hc2
        subst hc2
        decide)]

-- ### the idempotence theorem

theorem extract_json_idem_list (s : List Char) :
    extract_json (extract_json s) = extract_json s := by
  have hnoR : ¬ contains_seq tick3 (remove_ticks (remove_fence s)) := remove_ticks_no _
  set t := strip_chars (remove_ticks (remove_fence s)) with ht
  have hnot : ¬ contains_seq tick3 t := by
    obtain ⟨a, b, hab⟩ := strip_chars_sub (remove_ticks (remove_fence s))
    exact contains_seq_sub tick3 _ a t b hnoR hab
  have hstript : strip_chars t = t := by
    rw [ht]
    exact strip_chars_idem _
  have key : ∀ m : List Char, ¬ contains_seq tick3 m → strip_chars m = m →
      extract_json m = (if (brace_match m).isEmpty then m else brace_match m) := by
    intro m hno hst
    simp only [extract_json]
    rw [remove_fence_id m hno, remove_ticks_id m hno, hst]
  by_cases hm : (brace_match t).isEmpty
  · have he : extract_json s = t := by
      simp only [extract_json]
      rw [if_pos hm]
    rw [he, key t hnot hstript, if_pos hm]
  · have he : extract_json s = brace_match t := by
      simp only [extract_json]
      rw [if_neg hm]
    have hmne : brace_match t ≠ [] := by
      intro h0
      rw [h0] at hm
      exact hm rfl
    have hnom : ¬ contains_seq tick3 (brace_match t) := by
      obtain ⟨a, b, hab⟩ := brace_match_sub t
      exact contains_seq_sub tick3 t a _ b hnot hab
    obtain ⟨c0, hc0⟩ : ∃ c, (brace_match t).head? = some c := by
      cases hbm : brace_match t with
      | nil => exact absurd hbm hmne
      | cons x xs => exact ⟨x, rfl⟩
    have h1 : (brace_match t).head? = some lcurl := by
      rw [hc0, brace_match_head t c0 hc0]
    obtain ⟨c1, hc1⟩ : ∃ c, (brace_match t).reverse.head? = some c := by
      cases hbm : (brace_match t).reverse with
      | nil => exact absurd (by simpa using hbm) hmne
      | cons x xs => exact ⟨x, rfl⟩
    have h2 : (brace_match t).reverse.head? = some rcurl := by
      rw [hc1, brace_match_revhead t c1 hc1]
    have hstm : strip_chars (brace_match t) = brace_match t := by
      apply strip_chars_fix
      · intro c hc
        rw [h1] at hc
        injection hc with hc2
        subst hc2
        decide
      · intro c hc
        rw [h2] at hc
        injection hc with hc2
        subst hc2
        decide
    rw [he, key _ hnom hstm, brace_match_fix _ h1 h2]
    split <;> rfl

/-- C8.  `SolutionAgent._extract_json` is idempotent: applying the
extraction to an already-extracted string returns it unchanged — this is
exact byte equality, which subsumes the claimed equality up to
leading/trailing whitespace. -/
theorem c8_extract_json_idempotent (s : String) :
    extract_json_str (extract_json_str s) = extract_json_str s := by
  unfold extract_json_str
  rw [show (String.mk (extract_json s.toList)).toList = extract_json s.toList from rfl,
      extract_json_idem_list]

end SparkBox

